import Mathlib

/-!
Verification of the core game engine of a four-player trick-taking card
game (Contract Bridge): auction validation and contract determination,
trick resolution, deck dealing, board rotation and duplicate scoring.
Each definition is a shallow embedding of one function of the source
repository; theorems settle the specification claims against them.
-/

namespace Bridge

/-- Seat positions, `SeatPosition` in the source game engine. -/
inductive Seat
  | NORTH
  | EAST
  | SOUTH
  | WEST
deriving DecidableEq, Repr

/-- Partnership sides, `'NS' | 'EW'` in the source. -/
inductive Team
  | NS
  | EW
deriving DecidableEq, Repr

/-- Vulnerability record `{ NS: boolean; EW: boolean }`. -/
structure Vulnerability where
  NS : Bool
  EW : Bool
deriving DecidableEq, Repr

/-- Game phase enumeration of the source game engine. -/
inductive GamePhase
  | INITIALIZING
  | BIDDING
  | PLAYING
  | SCORING
  | COMPLETED
deriving DecidableEq, Repr

/-- Bid suits `'C' | 'D' | 'H' | 'S' | 'NT'`. -/
inductive BidSuit
  | C
  | D
  | H
  | S
  | NT
deriving DecidableEq, Repr

namespace BiddingEngine

/-- `getPartner` of `src/lib/game/biddingEngine.ts`: the fixed partner table. -/
def getPartner : Seat → Seat
  | Seat.NORTH => Seat.SOUTH
  | Seat.SOUTH => Seat.NORTH
  | Seat.EAST => Seat.WEST
  | Seat.WEST => Seat.EAST

/-- `arePartners` of `src/lib/game/biddingEngine.ts`: the explicit
four-case disjunction from the source. -/
def arePartners (seat1 seat2 : Seat) : Bool :=
  (seat1 == Seat.NORTH && seat2 == Seat.SOUTH) ||
  (seat1 == Seat.SOUTH && seat2 == Seat.NORTH) ||
  (seat1 == Seat.EAST && seat2 == Seat.WEST) ||
  (seat1 == Seat.WEST && seat2 == Seat.EAST)

/-- The `{ level, suit }` records compared by `isBidHigher`. -/
structure BidLS where
  level : Nat
  suit : BidSuit
deriving DecidableEq, Repr

/-- The `suitOrder` table of `isBidHigher`: C 1, D 2, H 3, S 4, NT 5. -/
def suitOrder : BidSuit → Nat
  | BidSuit.C => 1
  | BidSuit.D => 2
  | BidSuit.H => 3
  | BidSuit.S => 4
  | BidSuit.NT => 5

/-- `isBidHigher` of `src/lib/game/biddingEngine.ts`: a null current bid
is always beaten; otherwise higher level wins, equal level compares by
`suitOrder`. -/
def isBidHigher (newBid : BidLS) (currentBid : Option BidLS) : Bool :=
  match currentBid with
  | none => true
  | some cur =>
    if newBid.level > cur.level then true
    else if newBid.level < cur.level then false
    else suitOrder newBid.suit > suitOrder cur.suit

/-- Call kinds `'BID' | 'PASS' | 'DOUBLE' | 'REDOUBLE'`. -/
inductive CallType
  | BID
  | PASS
  | DOUBLE
  | REDOUBLE
deriving DecidableEq, Repr

/-- The `Bid` interface of `src/lib/game/biddingEngine.ts`: the acting
seat, the optional level and suit, and the call kind. -/
structure Bid where
  player : Seat
  level : Option Nat
  suit : Option BidSuit
  type : CallType
deriving DecidableEq, Repr

/-- The fields of the untyped `gameState` argument that `validateBid`
reads: bid history, current bid, and the doubled/redoubled flags. -/
structure GameStateB where
  bidHistory : List Bid
  currentBid : Option BidLS
  doubled : Bool
  redoubled : Bool
deriving DecidableEq, Repr

/-- The `{ valid: boolean; error?: string }` result record. -/
structure ValidationResult where
  valid : Bool
  error : Option String
deriving DecidableEq, Repr

/-- `validateBid` of `src/lib/game/biddingEngine.ts`, checking turn,
bid format and height, and the double/redouble legality rules. -/
def validateBid (bid : Bid) (gameState : GameStateB) (currentPlayerSeat : Seat) :
    ValidationResult :=
  if bid.player ≠ currentPlayerSeat then
    ⟨false, some ("Not your turn")⟩
  else
    match bid.type with
    | CallType.BID =>
      match bid.level, bid.suit with
      | some level, some suit =>
        if ¬ isBidHigher ⟨level, suit⟩ gameState.currentBid then
          ⟨false, some ("Bid must be higher than current bid")⟩
        else ⟨true, none⟩
      | _, _ => ⟨false, some ("Invalid bid format")⟩
    | CallType.PASS => ⟨true, none⟩
    | CallType.DOUBLE =>
      match gameState.currentBid with
      | none => ⟨false, some ("No bid to double")⟩
      | some _ =>
        match gameState.bidHistory.getLast? with
        | none => ⟨false, some ("Can only double a bid")⟩
        | some lastBid =>
          if lastBid.type ≠ CallType.BID then
            ⟨false, some ("Can only double a bid")⟩
          else if gameState.doubled then
            ⟨false, some ("Bid already doubled")⟩
          else if arePartners bid.player lastBid.player then
            ⟨false, some ("Can only double opponent's bid")⟩
          else ⟨true, none⟩
    | CallType.REDOUBLE =>
      if ¬ gameState.doubled then ⟨false, some ("No doubled bid to redouble")⟩
      else if gameState.redoubled then ⟨false, some ("Already redoubled")⟩
      else ⟨true, none⟩

/-- `isBiddingComplete` of `src/lib/game/biddingEngine.ts`: at least 4
calls, at least one `BID`, and the last three calls are `PASS`. -/
def isBiddingComplete (bidHistory : List Bid) : Bool :=
  if bidHistory.length < 4 then false
  else if ¬ bidHistory.any (fun b => b.type == CallType.BID) then false
  else (bidHistory.drop (bidHistory.length - 3)).all (fun b => b.type == CallType.PASS)

/-- The record returned by `determineContract`. -/
structure ContractInfo where
  level : Nat
  suit : BidSuit
  declarer : Seat
  doubled : Bool
  redoubled : Bool
deriving DecidableEq, Repr

/-- The backwards scan of `determineContract` for the index of the last
`BID` entry of the history. -/
def lastBidIdx (bidHistory : List Bid) : Option Nat :=
  (List.range bidHistory.length).reverse.find?
    (fun i => ((bidHistory[i]?).map (fun b => b.type == CallType.BID)).getD false)

/-- `determineContract` of `src/lib/game/biddingEngine.ts`: on a complete
auction, takes the last bid, collects double/redouble flags after it, and
scans the auction from the start for the first member of the final
bidder's partnership to name the contract suit. -/
def determineContract (bidHistory : List Bid) : Option ContractInfo :=
  if ¬ isBiddingComplete bidHistory then none
  else
    match lastBidIdx bidHistory with
    | none => none
    | some lastBidIndex =>
      match bidHistory[lastBidIndex]? with
      | none => none
      | some lastBid =>
        let doubled := (bidHistory.drop (lastBidIndex + 1)).any
          (fun b => b.type == CallType.DOUBLE)
        let redoubled := (bidHistory.drop (lastBidIndex + 1)).any
          (fun b => b.type == CallType.REDOUBLE)
        let partner := getPartner lastBid.player
        let declarer :=
          match (bidHistory.take (lastBidIndex + 1)).find?
              (fun b => b.type == CallType.BID && b.suit == lastBid.suit &&
                (b.player == lastBid.player || b.player == partner)) with
          | some b => b.player
          | none => lastBid.player
        some ⟨lastBid.level.getD 0, lastBid.suit.getD BidSuit.C, declarer, doubled, redoubled⟩

end BiddingEngine

namespace Constants

/-- `SUIT_ORDER` of `src/lib/constants/cards.ts`: bidding order of suits. -/
def SUIT_ORDER : BidSuit → Nat
  | BidSuit.C => 1
  | BidSuit.D => 2
  | BidSuit.H => 3
  | BidSuit.S => 4
  | BidSuit.NT => 5

end Constants

namespace Bidding

/-- The `Bid` interface of `src/lib/game/bidding.ts`: level, suit and the
optional doubled/redoubled flags (absent reads as false). -/
structure Bid where
  level : Nat
  suit : BidSuit
  doubled : Bool := false
  redoubled : Bool := false
deriving DecidableEq, Repr

/-- Action kinds `'bid' | 'pass' | 'double' | 'redouble'`. -/
inductive ActionType
  | bid
  | pass
  | double
  | redouble
deriving DecidableEq, Repr

/-- The `BidAction` interface of `src/lib/game/bidding.ts`. -/
structure BidAction where
  type : ActionType
  bid : Option Bid
  player : String
deriving DecidableEq, Repr

/-- The `Contract` interface of `src/lib/game/bidding.ts`: a bid plus
declarer and dummy player ids. -/
structure Contract where
  level : Nat
  suit : BidSuit
  doubled : Bool
  redoubled : Bool
  declarer : String
  dummy : String
deriving DecidableEq, Repr

/-- `isBidHigher` of `src/lib/game/bidding.ts`, comparing by level then
by `SUIT_ORDER`. -/
def isBidHigher (newBid : Bid) (currentBid : Option Bid) : Bool :=
  match currentBid with
  | none => true
  | some cur =>
    if newBid.level > cur.level then true
    else if newBid.level < cur.level then false
    else Constants.SUIT_ORDER newBid.suit > Constants.SUIT_ORDER cur.suit

/-- `getPlayerTeam` of `src/lib/game/bidding.ts`: a placeholder that
always answers NS (the source comment calls it a simplified version). -/
def getPlayerTeam (_ : String) : Team := Team.NS

/-- `getPartner` of `src/lib/game/bidding.ts`: a placeholder returning
the player id unchanged. -/
def getPartner (playerId : String) : String := playerId

/-- `isBiddingComplete` of `src/lib/game/bidding.ts`: at least 4 actions
and the last three are passes; no bid is required. -/
def isBiddingComplete (bidHistory : List BidAction) : Bool :=
  if bidHistory.length < 4 then false
  else (bidHistory.drop (bidHistory.length - 3)).all (fun a => a.type == ActionType.pass)

/-- `determineContract` of `src/lib/game/bidding.ts`: last bid action,
first bidder of the contract suit on the declaring team (using the
placeholder team lookup), partner as dummy. -/
def determineContract (bidHistory : List BidAction) : Option Contract :=
  if ¬ isBiddingComplete bidHistory then none
  else
    match bidHistory.reverse.find? (fun a => a.type == ActionType.bid) with
    | none => none
    | some lastBidAction =>
      match lastBidAction.bid with
      | none => none
      | some lastBid =>
        let contractSuit := lastBid.suit
        let declarerTeam := getPlayerTeam lastBidAction.player
        match bidHistory.find? (fun a =>
            a.type == ActionType.bid &&
            ((a.bid.map (fun b => b.suit == contractSuit)).getD false) &&
            getPlayerTeam a.player == declarerTeam) with
        | none => none
        | some firstBidder =>
          some ⟨lastBid.level, lastBid.suit, lastBid.doubled, lastBid.redoubled,
            firstBidder.player, getPartner firstBidder.player⟩

end Bidding

namespace BidRoute

/-- The phase update of `POST /api/games/[gameId]/bid` after an action is
appended: when `isBiddingComplete` holds, a contract moves the game to
PLAYING and no contract (all passed) ends the game at COMPLETED. -/
def newPhaseAfterBidding (bidHistory : List Bidding.BidAction) (phase : GamePhase) :
    GamePhase :=
  if Bidding.isBiddingComplete bidHistory then
    match Bidding.determineContract bidHistory with
    | some _ => GamePhase.PLAYING
    | none => GamePhase.COMPLETED
  else phase

end BidRoute

namespace GameEngine

/-- `calculateVulnerability` of the source game engine: the 4-board
cycle indexed by `(boardNumber - 1) % 4`. -/
def calculateVulnerability (boardNumber : Nat) : Vulnerability :=
  match (boardNumber - 1) % 4 + 1 with
  | 1 => ⟨false, false⟩
  | 2 => ⟨true, false⟩
  | 3 => ⟨false, true⟩
  | 4 => ⟨true, true⟩
  | _ => ⟨false, false⟩

/-- `getDealerForBoard` of the source game engine. -/
def getDealerForBoard (boardNumber : Nat) : Seat :=
  let positions : List Seat := [Seat.NORTH, Seat.EAST, Seat.SOUTH, Seat.WEST]
  positions.getD ((boardNumber - 1) % 4) Seat.NORTH

/-- `getNextPlayer` of the source game engine: one step through the
order list [NORTH, EAST, SOUTH, WEST]. -/
def getNextPlayer (current : Seat) : Seat :=
  let order : List Seat := [Seat.NORTH, Seat.EAST, Seat.SOUTH, Seat.WEST]
  order.getD ((order.indexOf current + 1) % 4) Seat.NORTH

end GameEngine

namespace PlayRoute

/-- `getVulnerability` of `src/app/api/games/[gameId]/play/route.ts`:
the 16-board standard rotation keyed by `boardNumber % 16`. -/
def getVulnerability (boardNumber : Nat) : Vulnerability :=
  let vuln := boardNumber % 16
  if [1, 8, 11, 14].contains vuln then ⟨false, false⟩
  else if [2, 5, 12, 15].contains vuln then ⟨true, false⟩
  else if [3, 6, 9, 0].contains vuln then ⟨false, true⟩
  else if [4, 7, 10, 13].contains vuln then ⟨true, true⟩
  else ⟨false, false⟩

end PlayRoute

/-- The vulnerability mapping exactly as the specification words it, for
comparison with the source functions: board n is keyed by `(n - 1) mod 4`
with 0 none, 1 NS, 2 EW, 3 both vulnerable. -/
def specVulnerabilityForBoard (n : Nat) : Vulnerability :=
  match (n - 1) % 4 with
  | 0 => ⟨false, false⟩
  | 1 => ⟨true, false⟩
  | 2 => ⟨false, true⟩
  | _ => ⟨true, true⟩

/-- Card suits `'C' | 'D' | 'H' | 'S'` of `src/lib/constants/cards.ts`
(also the `Suit` of `src/lib/game/cardUtils.ts`). -/
inductive Suit
  | C
  | D
  | H
  | S
deriving DecidableEq, Repr

/-- Card ranks `'2'..'9','T','J','Q','K','A'`. -/
inductive Rank
  | n2
  | n3
  | n4
  | n5
  | n6
  | n7
  | n8
  | n9
  | T
  | J
  | Q
  | K
  | A
deriving DecidableEq, Repr

/-- A card value: the source represents it either as the two-character
template string rank-then-suit (`src/lib/constants/cards.ts`) or as the
record `{suit, rank}` (`src/lib/game/cardUtils.ts`); both are this pair. -/
structure Card where
  rank : Rank
  suit : Suit
deriving DecidableEq, Repr

/-- `RANK_VALUES` of `src/lib/constants/cards.ts`: 2..14. -/
def RANK_VALUES : Rank → Nat
  | Rank.n2 => 2
  | Rank.n3 => 3
  | Rank.n4 => 4
  | Rank.n5 => 5
  | Rank.n6 => 6
  | Rank.n7 => 7
  | Rank.n8 => 8
  | Rank.n9 => 9
  | Rank.T => 10
  | Rank.J => 11
  | Rank.Q => 12
  | Rank.K => 13
  | Rank.A => 14

namespace Playing

/-- The `trumpSuit` parameter `Suit | 'NT' | null` of
`src/lib/game/playing.ts`. -/
inductive TrumpSuit
  | ofSuit (s : Suit)
  | NT
  | null
deriving DecidableEq, Repr

/-- One `{ card, player }` entry of a trick. -/
structure Play where
  card : Card
  player : String
deriving DecidableEq, Repr

/-- The body of the loop of `determineTrickWinner`: given the current
winning play and the next play, a real trump beats a non-trump, a
non-trump never beats a trump, and otherwise a higher card of the same
suit as the current winner takes over. -/
def trickStep (trumpSuit : TrumpSuit) (winningCard currentCard : Play) : Play :=
  match trumpSuit with
  | TrumpSuit.ofSuit t =>
    if currentCard.card.suit = t ∧ winningCard.card.suit ≠ t then currentCard
    else if winningCard.card.suit = t ∧ currentCard.card.suit ≠ t then winningCard
    else if currentCard.card.suit = winningCard.card.suit ∧
        RANK_VALUES winningCard.card.rank < RANK_VALUES currentCard.card.rank then
      currentCard
    else winningCard
  | _ =>
    if currentCard.card.suit = winningCard.card.suit ∧
        RANK_VALUES winningCard.card.rank < RANK_VALUES currentCard.card.rank then
      currentCard
    else winningCard

/-- `determineTrickWinner` of `src/lib/game/playing.ts`: fold the loop
body over the trick starting from its first play; an empty trick throws
in the source, here `none`. -/
def determineTrickWinner (trick : List Play) (trumpSuit : TrumpSuit) : Option String :=
  match trick with
  | [] => none
  | first :: rest => some ((rest.foldl (trickStep trumpSuit) first).player)

/-- The `seats` record argument of `getNextPlayer` in
`src/lib/game/playing.ts`. -/
structure Seats where
  north : String
  south : String
  east : String
  west : String
deriving DecidableEq, Repr

/-- Dynamic field access `seats[nextSeat]` of the source. -/
def seatField (seats : Seats) (name : String) : String :=
  if name == "north" then seats.north
  else if name == "south" then seats.south
  else if name == "east" then seats.east
  else seats.west

/-- `getNextPlayer` of `src/lib/game/playing.ts`: find the seat holding
`currentPlayer` among the entries of `seats`, then advance one step in
the source's `seatOrder` list ['north', 'south', 'east', 'west']; a
missing player throws in the source, here `none`. -/
def getNextPlayer (currentPlayer : String) (seats : Seats) : Option String :=
  let entries := [("north", seats.north), ("south", seats.south),
    ("east", seats.east), ("west", seats.west)]
  match entries.find? (fun e => e.2 == currentPlayer) with
  | none => none
  | some e =>
    let seatOrder := ["north", "south", "east", "west"]
    let nextSeat := seatOrder.getD ((seatOrder.indexOf e.1 + 1) % 4) ("north")
    some (seatField seats nextSeat)

end Playing

namespace CardUtils

/-- `SUITS` of `src/lib/game/cardUtils.ts` (generation order S,H,D,C). -/
def SUITS : List Suit := [Suit.S, Suit.H, Suit.D, Suit.C]

/-- `RANKS` of `src/lib/game/cardUtils.ts`. -/
def RANKS : List Rank :=
  [Rank.n2, Rank.n3, Rank.n4, Rank.n5, Rank.n6, Rank.n7, Rank.n8, Rank.n9,
   Rank.T, Rank.J, Rank.Q, Rank.K, Rank.A]

/-- `createDeck` of `src/lib/game/cardUtils.ts`: all 52 cards, suit-major
in the order of `SUITS` and `RANKS`. -/
def createDeck : List Card :=
  SUITS.flatMap (fun suit => RANKS.map (fun rank => ⟨rank, suit⟩))

/-- The four dealt hands keyed by seat. -/
structure Hands where
  NORTH : List Card
  SOUTH : List Card
  EAST : List Card
  WEST : List Card
deriving DecidableEq, Repr

/-- `dealCards` of `src/lib/game/cardUtils.ts`: requires exactly 52
cards (the source throws otherwise, here `none`) and hands out the four
consecutive 13-card slices. -/
def dealCards (shuffledDeck : List Card) : Option Hands :=
  if shuffledDeck.length ≠ 52 then none
  else
    some ⟨shuffledDeck.take 13,
      (shuffledDeck.drop 13).take 13,
      (shuffledDeck.drop 26).take 13,
      (shuffledDeck.drop 39).take 13⟩

end CardUtils

namespace Scoring

/-- The `ContractScoring` interface of `src/lib/game/scoring.ts`. -/
structure ContractScoring where
  level : Nat
  suit : BidSuit
  doubled : Bool
  redoubled : Bool
deriving DecidableEq, Repr

/-- The `breakdown` record of a `ScoringResult`. -/
structure Breakdown where
  trickScore : Int
  overtricks : Int
  gameBonus : Int
  slamBonus : Int
  doubleBonus : Int
  penalty : Int
deriving DecidableEq, Repr

/-- The `ScoringResult` interface of `src/lib/game/scoring.ts`. -/
structure ScoringResult where
  scoreNS : Int
  scoreEW : Int
  breakdown : Breakdown
deriving DecidableEq, Repr

/-- `calculateBasePoints` of `src/lib/game/scoring.ts`. -/
def calculateBasePoints (level : Nat) (suit : BidSuit) : Int :=
  if suit = BidSuit.NT then 40 + ((level : Int) - 1) * 30
  else if suit = BidSuit.C ∨ suit = BidSuit.D then (level : Int) * 20
  else (level : Int) * 30

/-- The per-undertrick amount of the doubled-penalty loop of
`calculateScore`: index 0 pays 200/100, indexes 1 and 2 pay 300/200,
later indexes pay 300. -/
def undertrickRate (isVulnerable : Bool) (i : Nat) : Int :=
  if i = 0 then (if isVulnerable then 200 else 100)
  else if i ≤ 2 then (if isVulnerable then 300 else 200)
  else 300

/-- `calculateScore` of `src/lib/game/scoring.ts`, ACBL-style duplicate
scoring as the source writes it: note that the made branch tests
`doubled` before `redoubled` and that both the doubled and the redoubled
made bonus are added to the total when both flags are set. -/
def calculateScore (contract : ContractScoring) (tricksWon : Nat) (declarer : Team)
    (vulnerability : Vulnerability) : ScoringResult :=
  let requiredTricks : Int := 6 + (contract.level : Int)
  let isVulnerable := match declarer with
    | Team.NS => vulnerability.NS
    | Team.EW => vulnerability.EW
  let overtricks : Int := (tricksWon : Int) - requiredTricks
  let undertricks : Int := requiredTricks - (tricksWon : Int)
  if 0 ≤ overtricks then
    let basePoints := calculateBasePoints contract.level contract.suit
    let trickScore :=
      if contract.doubled then basePoints * 2
      else if contract.redoubled then basePoints * 4
      else basePoints
    let overtrickBonus :=
      if 0 < overtricks then
        if contract.doubled then overtricks * (if isVulnerable then 200 else 100)
        else if contract.redoubled then overtricks * (if isVulnerable then 400 else 200)
        else
          overtricks *
            (if contract.suit = BidSuit.C ∨ contract.suit = BidSuit.D then 20 else 30)
      else 0
    let gameBonus := if 100 ≤ trickScore then (if isVulnerable then 500 else 300) else 50
    let slamBonus :=
      if contract.level = 6 then (if isVulnerable then 750 else 500)
      else if contract.level = 7 then (if isVulnerable then 1500 else 1000)
      else 0
    let doubleBonusScore :=
      (if contract.doubled then (50 : Int) else 0) +
      (if contract.redoubled then (100 : Int) else 0)
    let doubleBonusField : Int :=
      if contract.redoubled then 100 else if contract.doubled then 50 else 0
    let score := trickScore + overtrickBonus + gameBonus + slamBonus + doubleBonusScore
    match declarer with
    | Team.NS =>
      ⟨score, 0, ⟨trickScore, overtrickBonus, gameBonus, slamBonus, doubleBonusField, 0⟩⟩
    | Team.EW =>
      ⟨0, score, ⟨trickScore, overtrickBonus, gameBonus, slamBonus, doubleBonusField, 0⟩⟩
  else
    let penalty :=
      if contract.doubled then
        let base := ((List.range undertricks.natAbs).map (undertrickRate isVulnerable)).sum
        if contract.redoubled then base * 2 else base
      else (undertricks.natAbs : Int) * (if isVulnerable then 100 else 50)
    let score := -penalty
    match declarer with
    | Team.NS => ⟨score, 0, ⟨0, 0, 0, 0, 0, penalty⟩⟩
    | Team.EW => ⟨0, score, ⟨0, 0, 0, 0, 0, penalty⟩⟩

end Scoring

/-! Helper lemmas shared by the claim theorems. -/

/-- The 52-card deck has no duplicate card. -/
theorem createDeck_nodup : CardUtils.createDeck.Nodup := by decide

/-- Two cards with equal rank and equal suit are the same card. -/
theorem card_eq_of (a b : Card) (h1 : a.rank = b.rank) (h2 : a.suit = b.suit) : a = b := by
  cases a; cases b; simp_all

/-- The rank-value table is injective. -/
theorem RANK_VALUES_injective (a b : Rank) (h : RANK_VALUES a = RANK_VALUES b) : a = b := by
  revert h; cases a <;> cases b <;> decide

/-- Each loop iteration of `determineTrickWinner` keeps either the old
winning play or the newly examined play. -/
theorem trickStep_eq_or (ts : Playing.TrumpSuit) (w c : Playing.Play) :
    Playing.trickStep ts w c = w ∨ Playing.trickStep ts w c = c := by
  cases ts <;> unfold Playing.trickStep <;> dsimp only <;> (repeat' split) <;> simp

/-- With a real trump suit, if either compared play is a trump then the
step result is a trump at least as high as both trump inputs. -/
theorem trickStep_trump (t : Suit) (w c : Playing.Play)
    (h : w.card.suit = t ∨ c.card.suit = t) :
    (Playing.trickStep (Playing.TrumpSuit.ofSuit t) w c).card.suit = t ∧
    (w.card.suit = t →
      RANK_VALUES w.card.rank ≤
        RANK_VALUES (Playing.trickStep (Playing.TrumpSuit.ofSuit t) w c).card.rank) ∧
    (c.card.suit = t →
      RANK_VALUES c.card.rank ≤
        RANK_VALUES (Playing.trickStep (Playing.TrumpSuit.ofSuit t) w c).card.rank) := by
  unfold Playing.trickStep
  dsimp only
  rcases h with h | h <;> (repeat' split) <;> simp_all <;> omega

/-- With a real trump suit but no trump among the two compared plays, the
step keeps the winning play's suit and only a higher card of that same
suit can take over. -/
theorem trickStep_noTrump (t : Suit) (w c : Playing.Play)
    (hw : w.card.suit ≠ t) (hc : c.card.suit ≠ t) :
    (Playing.trickStep (Playing.TrumpSuit.ofSuit t) w c).card.suit = w.card.suit ∧
    RANK_VALUES w.card.rank ≤
      RANK_VALUES (Playing.trickStep (Playing.TrumpSuit.ofSuit t) w c).card.rank ∧
    (c.card.suit = w.card.suit →
      RANK_VALUES c.card.rank ≤
        RANK_VALUES (Playing.trickStep (Playing.TrumpSuit.ofSuit t) w c).card.rank) := by
  unfold Playing.trickStep
  dsimp only
  (repeat' split) <;> simp_all <;> omega

/-- Without a real trump suit (NT or null) the step compares only within
the winning play's suit. -/
theorem trickStep_nt (ts : Playing.TrumpSuit)
    (h : ts = Playing.TrumpSuit.NT ∨ ts = Playing.TrumpSuit.null) (w c : Playing.Play) :
    (Playing.trickStep ts w c).card.suit = w.card.suit ∧
    RANK_VALUES w.card.rank ≤ RANK_VALUES (Playing.trickStep ts w c).card.rank ∧
    (c.card.suit = w.card.suit →
      RANK_VALUES c.card.rank ≤ RANK_VALUES (Playing.trickStep ts w c).card.rank) := by
  rcases h with h | h <;> subst h <;> unfold Playing.trickStep <;> dsimp only <;>
    (repeat' split) <;> simp_all <;> omega

/-- The fold of `determineTrickWinner` returns one of the trick's plays. -/
theorem trickFold_mem (ts : Playing.TrumpSuit) :
    ∀ (r : List Playing.Play) (f : Playing.Play),
      r.foldl (Playing.trickStep ts) f ∈ f :: r := by
  intro r
  induction r with
  | nil => intro f; simp
  | cons a r ih =>
    intro f
    simp only [List.foldl_cons]
    rcases trickStep_eq_or ts f a with h2 | h2 <;> rw [h2]
    · have h1 := ih f
      simp only [List.mem_cons] at h1 ⊢
      tauto
    · have h1 := ih a
      simp only [List.mem_cons] at h1 ⊢
      tauto

/-- The invariant of the `determineTrickWinner` loop under a real trump
suit: if the trick holds a trump, the fold result is a maximal trump;
if it holds none, the fold result is a maximal card of the suit of the
play the fold starts from. -/
theorem trickFold_trump (t : Suit) :
    ∀ (r : List Playing.Play) (f : Playing.Play),
      ((f.card.suit = t ∨ ∃ p ∈ r, p.card.suit = t) →
        ((r.foldl (Playing.trickStep (Playing.TrumpSuit.ofSuit t)) f).card.suit = t ∧
         ∀ q ∈ f :: r, q.card.suit = t →
           RANK_VALUES q.card.rank ≤
             RANK_VALUES
               (r.foldl (Playing.trickStep (Playing.TrumpSuit.ofSuit t)) f).card.rank)) ∧
      ((f.card.suit ≠ t ∧ ∀ p ∈ r, p.card.suit ≠ t) →
        ((r.foldl (Playing.trickStep (Playing.TrumpSuit.ofSuit t)) f).card.suit =
           f.card.suit ∧
         ∀ q ∈ f :: r, q.card.suit = f.card.suit →
           RANK_VALUES q.card.rank ≤
             RANK_VALUES
               (r.foldl (Playing.trickStep (Playing.TrumpSuit.ofSuit t)) f).card.rank)) := by
  intro r
  induction r with
  | nil =>
    intro f
    constructor
    · rintro (h | ⟨p, hp, _⟩)
      · exact ⟨h, by intro q hq _; simp at hq; subst hq; exact le_refl _⟩
      · simp at hp
    · intro h
      exact ⟨rfl, by intro q hq _; simp at hq; subst hq; exact le_refl _⟩
  | cons a r ih =>
    intro f
    simp only [List.foldl_cons]
    have hmem := trickFold_mem (Playing.TrumpSuit.ofSuit t) r
      (Playing.trickStep (Playing.TrumpSuit.ofSuit t) f a)
    constructor
    · rintro h
      by_cases hfa : f.card.suit = t ∨ a.card.suit = t
      · obtain ⟨hs, hf, ha⟩ := trickStep_trump t f a hfa
        obtain ⟨hw, hbound⟩ :=
          (ih (Playing.trickStep (Playing.TrumpSuit.ofSuit t) f a)).1 (Or.inl hs)
        refine ⟨hw, ?_⟩
        intro q hq hqt
        have hstep := hbound (Playing.trickStep (Playing.TrumpSuit.ofSuit t) f a)
          (by simp) hs
        simp only [List.mem_cons] at hq
        rcases hq with hq | hq | hq
        · subst hq; exact le_trans (hf hqt) hstep
        · subst hq; exact le_trans (ha hqt) hstep
        · exact hbound q (by simp [hq]) hqt
      · push_neg at hfa
        obtain ⟨hft, hat⟩ := hfa
        have hr : ∃ p ∈ r, p.card.suit = t := by
          rcases h with h | ⟨p, hp, hpt⟩
          · exact absurd h hft
          · simp only [List.mem_cons] at hp
            rcases hp with hp | hp
            · subst hp; exact absurd hpt hat
            · exact ⟨p, hp, hpt⟩
        obtain ⟨hsuit, hrank, _⟩ := trickStep_noTrump t f a hft hat
        obtain ⟨hw, hbound⟩ :=
          (ih (Playing.trickStep (Playing.TrumpSuit.ofSuit t) f a)).1 (Or.inr hr)
        refine ⟨hw, ?_⟩
        intro q hq hqt
        simp only [List.mem_cons] at hq
        rcases hq with hq | hq | hq
        · subst hq; exact absurd hqt hft
        · subst hq; exact absurd hqt hat
        · exact hbound q (by simp [hq]) hqt
    · rintro ⟨hft, hrt⟩
      have hat : a.card.suit ≠ t := hrt a (by simp)
      have hrt2 : ∀ p ∈ r, p.card.suit ≠ t := fun p hp => hrt p (by simp [hp])
      obtain ⟨hsuit, hrankf, hranka⟩ := trickStep_noTrump t f a hft hat
      obtain ⟨hw, hbound⟩ :=
        (ih (Playing.trickStep (Playing.TrumpSuit.ofSuit t) f a)).2
          ⟨by rw [hsuit]; exact hft, hrt2⟩
      rw [hsuit] at hw
      refine ⟨hw, ?_⟩
      intro q hq hqs
      have hstep := hbound (Playing.trickStep (Playing.TrumpSuit.ofSuit t) f a)
        (by simp) (by rw [hsuit])
      simp only [List.mem_cons] at hq
      rcases hq with hq | hq | hq
      · subst hq; exact le_trans hrankf hstep
      · subst hq; exact le_trans (hranka hqs) hstep
      · exact hbound q (by simp [hq]) (by rw [hsuit]; exact hqs)

/-- The invariant of the `determineTrickWinner` loop without a real trump
suit: the fold result is a maximal card of the suit of the starting
play. -/
theorem trickFold_nt (ts : Playing.TrumpSuit)
    (hts : ts = Playing.TrumpSuit.NT ∨ ts = Playing.TrumpSuit.null) :
    ∀ (r : List Playing.Play) (f : Playing.Play),
      (r.foldl (Playing.trickStep ts) f).card.suit = f.card.suit ∧
      ∀ q ∈ f :: r, q.card.suit = f.card.suit →
        RANK_VALUES q.card.rank ≤
          RANK_VALUES (r.foldl (Playing.trickStep ts) f).card.rank := by
  intro r
  induction r with
  | nil =>
    intro f
    refine ⟨rfl, ?_⟩
    intro q hq _
    simp at hq; subst hq; exact le_refl _
  | cons a r ih =>
    intro f
    simp only [List.foldl_cons]
    obtain ⟨hsuit, hrankf, hranka⟩ := trickStep_nt ts hts f a
    obtain ⟨hw, hbound⟩ := ih (Playing.trickStep ts f a)
    rw [hsuit] at hw
    refine ⟨hw, ?_⟩
    intro q hq hqs
    have hstep := hbound (Playing.trickStep ts f a) (by simp) rfl
    simp only [List.mem_cons] at hq
    rcases hq with hq | hq | hq
    · subst hq; exact le_trans hrankf hstep
    · subst hq; exact le_trans (hranka hqs) hstep
    · exact hbound q (by simp [hq]) (by rw [hsuit]; exact hqs)

/-- The boolean result of `isBidHigher` against a present current bid,
as an arithmetic statement. -/
theorem isBidHigher_some_iff (a b : BiddingEngine.BidLS) :
    BiddingEngine.isBidHigher a (some b) = true ↔
      (b.level < a.level ∨
        (a.level = b.level ∧
          BiddingEngine.suitOrder b.suit < BiddingEngine.suitOrder a.suit)) := by
  simp only [BiddingEngine.isBidHigher]
  split
  · simp; omega
  · split
    · simp; omega
    · simp; omega

/-- The `suitOrder` table of the bidding engine is injective. -/
theorem suitOrder_injective (s t : BidSuit)
    (h : BiddingEngine.suitOrder s = BiddingEngine.suitOrder t) : s = t := by
  revert h; cases s <;> cases t <;> decide

/-- Each seat is a partner of the seat the partner table assigns it. -/
theorem arePartners_getPartner (s : Seat) :
    BiddingEngine.arePartners s (BiddingEngine.getPartner s) = true := by
  cases s <;> rfl

/-- Every per-undertrick amount of the doubled penalty loop is positive. -/
theorem undertrickRate_pos (v : Bool) (i : Nat) : 0 < Scoring.undertrickRate v i := by
  unfold Scoring.undertrickRate
  repeat' split
  all_goals norm_num

/-- The doubled penalty loop accumulates a positive total over at least
one undertrick. -/
theorem doubled_penalty_pos (v : Bool) (n : Nat) (hn : n ≠ 0) :
    0 < ((List.range n).map (Scoring.undertrickRate v)).sum := by
  apply List.sum_pos
  · intro x hx
    simp only [List.mem_map] at hx
    obtain ⟨i, _, hi⟩ := hx
    rw [← hi]
    exact undertrickRate_pos _ _
  · simp only [ne_eq, List.map_eq_nil_iff, List.range_eq_nil]
    exact hn

/-! Claim theorems. -/

/-- Claim C1, counterexample: for level 1 NT doubled, 6 tricks won,
declarer NS and NS vulnerable, the computed penalty is 200, but
`calculateScore` does not credit it to the defending side: the defenders
(EW) score 0 and the declaring side scores -200, contradicting the
claimed defender score of 200 with declarer at 0. -/
theorem failed_contract_defender_credit_counterexample :
    (Scoring.calculateScore ⟨1, BidSuit.NT, true, false⟩ 6 Team.NS
      ⟨true, false⟩).breakdown.penalty = 200 ∧
    (Scoring.calculateScore ⟨1, BidSuit.NT, true, false⟩ 6 Team.NS
      ⟨true, false⟩).scoreEW = 0 ∧
    (Scoring.calculateScore ⟨1, BidSuit.NT, true, false⟩ 6 Team.NS
      ⟨true, false⟩).scoreNS = -200 ∧
    ¬ ((Scoring.calculateScore ⟨1, BidSuit.NT, true, false⟩ 6 Team.NS
        ⟨true, false⟩).scoreEW = 200 ∧
       (Scoring.calculateScore ⟨1, BidSuit.NT, true, false⟩ 6 Team.NS
        ⟨true, false⟩).scoreNS = 0) := by decide

/-- Claim C1, amended: for every failed contract (tricksWon below
6 + level) the breakdown records a positive penalty, the declaring side
scores minus that penalty, and the non-declaring side scores 0; in the
1NT-doubled-down-1-vulnerable example the penalty is 200, giving the
declaring side -200 and the defenders 0. -/
theorem failed_contract_penalty_to_declarer :
    (∀ (contract : Scoring.ContractScoring) (tricksWon : Nat) (declarer : Team)
        (vulnerability : Vulnerability),
      tricksWon < 6 + contract.level →
      0 < (Scoring.calculateScore contract tricksWon declarer
            vulnerability).breakdown.penalty ∧
      (declarer = Team.NS →
        (Scoring.calculateScore contract tricksWon declarer vulnerability).scoreNS =
          -(Scoring.calculateScore contract tricksWon declarer
              vulnerability).breakdown.penalty ∧
        (Scoring.calculateScore contract tricksWon declarer vulnerability).scoreEW = 0) ∧
      (declarer = Team.EW →
        (Scoring.calculateScore contract tricksWon declarer vulnerability).scoreEW =
          -(Scoring.calculateScore contract tricksWon declarer
              vulnerability).breakdown.penalty ∧
        (Scoring.calculateScore contract tricksWon declarer vulnerability).scoreNS = 0)) ∧
    Scoring.calculateScore ⟨1, BidSuit.NT, true, false⟩ 6 Team.NS ⟨true, false⟩ =
      ⟨-200, 0, ⟨0, 0, 0, 0, 0, 200⟩⟩ := by
  constructor
  · intro contract tricksWon declarer vulnerability hdown
    have hneg : ¬ (0 ≤ (tricksWon : Int) - (6 + (contract.level : Int))) := by omega
    cases declarer <;>
      simp only [Scoring.calculateScore, if_neg hneg] <;>
      (repeat' split) <;>
      refine ⟨?_, by simp, by simp⟩
    all_goals
      first
      | (have hp := doubled_penalty_pos vulnerability.NS
          ((6 + (contract.level : Int)) - (tricksWon : Int)).natAbs (by omega)
         omega)
      | (have hp := doubled_penalty_pos vulnerability.EW
          ((6 + (contract.level : Int)) - (tricksWon : Int)).natAbs (by omega)
         omega)
  · decide

/-- Claim C1, witness: a 2S contract with 7 tricks won (down 1) by EW,
nobody vulnerable, has a positive recorded penalty. -/
theorem failed_contract_penalty_to_declarer_witness :
    (7 : Nat) < 6 + 2 ∧
    0 < (Scoring.calculateScore ⟨2, BidSuit.S, false, false⟩ 7 Team.EW
          ⟨false, false⟩).breakdown.penalty :=
  ⟨by decide,
   (failed_contract_penalty_to_declarer.1 ⟨2, BidSuit.S, false, false⟩ 7 Team.EW
     ⟨false, false⟩ (by decide)).1⟩

/-- Claim C2: evaluating `calculateScore` on a contract recorded with
both doubled and redoubled set (as a redoubled auction records it), made
exactly at level 1 in clubs non-vulnerable: the trick score is 40, i.e.
base 20 doubled, not the redoubled base times 4; the total 240 includes
both the +50 and the +100 made bonus (not exactly +100); and with one
overtrick the overtrick entry is 100 (the doubled rate), not 200 (the
redoubled rate). -/
theorem redoubled_made_scoring_eval :
    Scoring.calculateScore ⟨1, BidSuit.C, true, true⟩ 7 Team.NS ⟨false, false⟩ =
      ⟨240, 0, ⟨40, 0, 50, 0, 100, 0⟩⟩ ∧
    (Scoring.calculateScore ⟨1, BidSuit.C, true, true⟩ 7 Team.NS
      ⟨false, false⟩).breakdown.trickScore ≠
      Scoring.calculateBasePoints 1 BidSuit.C * 4 ∧
    (Scoring.calculateScore ⟨1, BidSuit.C, true, true⟩ 8 Team.NS
      ⟨false, false⟩).breakdown.overtricks = 100 ∧
    (Scoring.calculateScore ⟨1, BidSuit.C, true, true⟩ 8 Team.NS
      ⟨false, false⟩).breakdown.overtricks ≠ 200 := by decide

/-- Claim C3, counterexample: on the history of exactly four passes and
no bid, `isBiddingComplete` of `src/lib/game/biddingEngine.ts` returns
false (it requires at least one BID), contradicting the claim that the
auction is complete with isBiddingComplete returning true. -/
theorem passed_out_not_complete_counterexample :
    BiddingEngine.isBiddingComplete
      [⟨Seat.NORTH, none, none, BiddingEngine.CallType.PASS⟩,
       ⟨Seat.EAST, none, none, BiddingEngine.CallType.PASS⟩,
       ⟨Seat.SOUTH, none, none, BiddingEngine.CallType.PASS⟩,
       ⟨Seat.WEST, none, none, BiddingEngine.CallType.PASS⟩] = false := by decide

/-- Claim C3, amended: in the bidding module the bid route actually uses
(`src/lib/game/bidding.ts`), four passes complete the auction,
`determineContract` yields no contract, and the route moves the game to
COMPLETED (passed out); the alternate `isBiddingComplete` of
`src/lib/game/biddingEngine.ts` instead returns false on the same
four-pass auction because it additionally requires a bid. -/
theorem passed_out_four_passes :
    Bidding.isBiddingComplete
      [⟨Bidding.ActionType.pass, none, "N"⟩, ⟨Bidding.ActionType.pass, none, "E"⟩,
       ⟨Bidding.ActionType.pass, none, "S"⟩, ⟨Bidding.ActionType.pass, none, "W"⟩] =
      true ∧
    Bidding.determineContract
      [⟨Bidding.ActionType.pass, none, "N"⟩, ⟨Bidding.ActionType.pass, none, "E"⟩,
       ⟨Bidding.ActionType.pass, none, "S"⟩, ⟨Bidding.ActionType.pass, none, "W"⟩] =
      none ∧
    BidRoute.newPhaseAfterBidding
      [⟨Bidding.ActionType.pass, none, "N"⟩, ⟨Bidding.ActionType.pass, none, "E"⟩,
       ⟨Bidding.ActionType.pass, none, "S"⟩, ⟨Bidding.ActionType.pass, none, "W"⟩]
      GamePhase.BIDDING = GamePhase.COMPLETED ∧
    BiddingEngine.isBiddingComplete
      [⟨Seat.NORTH, none, none, BiddingEngine.CallType.PASS⟩,
       ⟨Seat.EAST, none, none, BiddingEngine.CallType.PASS⟩,
       ⟨Seat.SOUTH, none, none, BiddingEngine.CallType.PASS⟩,
       ⟨Seat.WEST, none, none, BiddingEngine.CallType.PASS⟩] = false := by decide

/-- Claim C4: for the auction North 1H, East Pass, South 2H, West Pass,
North Pass, East Pass, South Pass, `determineContract` yields level 2 in
hearts with declarer NORTH (the first of the partnership to name hearts,
found scanning from the start), and the declarer's partner (the dummy)
is SOUTH. -/
theorem declarer_first_of_partnership :
    BiddingEngine.determineContract
      [⟨Seat.NORTH, some 1, some BidSuit.H, BiddingEngine.CallType.BID⟩,
       ⟨Seat.EAST, none, none, BiddingEngine.CallType.PASS⟩,
       ⟨Seat.SOUTH, some 2, some BidSuit.H, BiddingEngine.CallType.BID⟩,
       ⟨Seat.WEST, none, none, BiddingEngine.CallType.PASS⟩,
       ⟨Seat.NORTH, none, none, BiddingEngine.CallType.PASS⟩,
       ⟨Seat.EAST, none, none, BiddingEngine.CallType.PASS⟩,
       ⟨Seat.SOUTH, none, none, BiddingEngine.CallType.PASS⟩] =
      some ⟨2, BidSuit.H, Seat.NORTH, false, false⟩ ∧
    BiddingEngine.getPartner Seat.NORTH = Seat.SOUTH := by decide

/-- Claim C5: the game engine's seat-level `getNextPlayer` does follow
NORTH to EAST to SOUTH to WEST to NORTH, but the `getNextPlayer` of
`src/lib/game/playing.ts` does not: with alice north, bob south, carol
east and dave west, the player after alice (NORTH) is bob, the SOUTH
player, not carol the EAST player, and the player after bob (SOUTH) is
carol, the EAST player, not dave the WEST player. -/
theorem next_player_rotation_eval :
    GameEngine.getNextPlayer Seat.NORTH = Seat.EAST ∧
    GameEngine.getNextPlayer Seat.EAST = Seat.SOUTH ∧
    GameEngine.getNextPlayer Seat.SOUTH = Seat.WEST ∧
    GameEngine.getNextPlayer Seat.WEST = Seat.NORTH ∧
    Playing.getNextPlayer ("alice") ⟨"alice", "bob", "carol", "dave"⟩ = some ("bob") ∧
    Playing.getNextPlayer ("bob") ⟨"alice", "bob", "carol", "dave"⟩ = some ("carol") ∧
    ("bob" : String) ≠ "carol" ∧ ("carol" : String) ≠ "dave" := by decide

/-- Claim C6, counterexample: with a history whose only entry is a BID
by NORTH and a current bid present, a DOUBLE by NORTH itself is accepted
by `validateBid` (valid, no error), contradicting the claim that a
double of a bid made by the acting seat itself is rejected. -/
theorem double_own_bid_accepted_counterexample :
    BiddingEngine.validateBid ⟨Seat.NORTH, none, none, BiddingEngine.CallType.DOUBLE⟩
      ⟨[⟨Seat.NORTH, some 1, some BidSuit.C, BiddingEngine.CallType.BID⟩],
        some ⟨1, BidSuit.C⟩, false, false⟩ Seat.NORTH =
      ⟨true, none⟩ := by decide

/-- Claim C6, amended: whenever the most recent history entry is a BID
made by the acting seat's partner, the current bid exists, the contract
is not yet doubled, and the double is offered on the acting seat's turn,
`validateBid` rejects the DOUBLE with the can-only-double-opponent
error; a bid by the acting seat itself is not covered (the partner test
is irreflexive, so doubling one's own bid passes validation). -/
theorem double_partner_bid_rejected (bid : BiddingEngine.Bid)
    (gs : BiddingEngine.GameStateB) (seat : Seat) (lastBid : BiddingEngine.Bid)
    (htype : bid.type = BiddingEngine.CallType.DOUBLE)
    (hturn : bid.player = seat)
    (hcur : gs.currentBid.isSome = true)
    (hlast : gs.bidHistory.getLast? = some lastBid)
    (hlb : lastBid.type = BiddingEngine.CallType.BID)
    (hpartner : lastBid.player = BiddingEngine.getPartner bid.player)
    (hnd : gs.doubled = false) :
    BiddingEngine.validateBid bid gs seat =
      ⟨false, some ("Can only double opponent's bid")⟩ := by
  obtain ⟨cb, hcb⟩ := Option.isSome_iff_exists.mp hcur
  simp only [BiddingEngine.validateBid, hturn, htype, hcb, hlast, hlb, hnd, hpartner]
  simp [arePartners_getPartner]

/-- Claim C6, witness: SOUTH doubling after partner NORTH's 1H bid is
rejected with the can-only-double-opponent error. -/
theorem double_partner_bid_rejected_witness :
    (([⟨Seat.NORTH, some 1, some BidSuit.H, BiddingEngine.CallType.BID⟩] :
        List BiddingEngine.Bid).getLast? =
      some ⟨Seat.NORTH, some 1, some BidSuit.H, BiddingEngine.CallType.BID⟩) ∧
    BiddingEngine.validateBid ⟨Seat.SOUTH, none, none, BiddingEngine.CallType.DOUBLE⟩
      ⟨[⟨Seat.NORTH, some 1, some BidSuit.H, BiddingEngine.CallType.BID⟩],
        some ⟨1, BidSuit.H⟩, false, false⟩ Seat.SOUTH =
      ⟨false, some ("Can only double opponent's bid")⟩ :=
  ⟨rfl,
   double_partner_bid_rejected
     ⟨Seat.SOUTH, none, none, BiddingEngine.CallType.DOUBLE⟩
     ⟨[⟨Seat.NORTH, some 1, some BidSuit.H, BiddingEngine.CallType.BID⟩],
       some ⟨1, BidSuit.H⟩, false, false⟩
     Seat.SOUTH
     ⟨Seat.NORTH, some 1, some BidSuit.H, BiddingEngine.CallType.BID⟩
     rfl rfl rfl rfl rfl rfl rfl⟩

/-- Claim C7, counterexample: at board 5 the play route's
`getVulnerability` answers NS vulnerable while the claimed
`(n - 1) mod 4` mapping (and the game engine's `calculateVulnerability`)
answers nobody vulnerable, so not every vulnerability function computes
the claimed mapping. -/
theorem vulnerability_route_counterexample :
    PlayRoute.getVulnerability 5 = ⟨true, false⟩ ∧
    specVulnerabilityForBoard 5 = ⟨false, false⟩ ∧
    GameEngine.calculateVulnerability 5 = ⟨false, false⟩ ∧
    PlayRoute.getVulnerability 5 ≠ specVulnerabilityForBoard 5 := by decide

/-- Claim C7, amended: the game engine's `calculateVulnerability`
computes the `(n - 1) mod 4` mapping for every board n at least 1, and
the play route's 16-board `getVulnerability` agrees with that mapping on
boards 1 through 4 (it diverges from board 5 on). -/
theorem vulnerability_board_mapping :
    (∀ n : Nat, 1 ≤ n →
      GameEngine.calculateVulnerability n = specVulnerabilityForBoard n) ∧
    (∀ n : Nat, 1 ≤ n → n ≤ 4 →
      PlayRoute.getVulnerability n = specVulnerabilityForBoard n) := by
  constructor
  · intro n hn
    have h4 : (n - 1) % 4 = 0 ∨ (n - 1) % 4 = 1 ∨ (n - 1) % 4 = 2 ∨ (n - 1) % 4 = 3 := by
      omega
    rcases h4 with h | h | h | h <;>
      simp only [GameEngine.calculateVulnerability, specVulnerabilityForBoard, h]
  · intro n h1 h4
    interval_cases n <;> rfl

/-- Claim C7, witness: board 2 is NS vulnerable under both functions and
matches the claimed mapping. -/
theorem vulnerability_board_mapping_witness :
    (1 : Nat) ≤ 2 ∧
    GameEngine.calculateVulnerability 2 = specVulnerabilityForBoard 2 ∧
    PlayRoute.getVulnerability 2 = specVulnerabilityForBoard 2 :=
  ⟨by decide, vulnerability_board_mapping.1 2 (by decide),
   vulnerability_board_mapping.2 2 (by decide) (by decide)⟩

/-- Claim C8: for every non-empty trick of at most 4 plays of distinct
cards, with a real trump suit present in the trick the winner is the
player of the strictly highest trump; otherwise (real trump absent, NT,
or null) the winner is the player of the strictly highest card of the
led suit, so a card of a non-led non-trump suit never wins; and in the
trick 7C led, KC, 2D, 3D with diamonds trump the player of the 3D
wins. -/
theorem trick_winner_spec :
    (∀ (first : Playing.Play) (rest : List Playing.Play) (t : Suit),
      (first :: rest).length ≤ 4 →
      ((first :: rest).map Playing.Play.card).Nodup →
      (∃ p ∈ first :: rest, p.card.suit = t) →
      ∃ p ∈ first :: rest,
        Playing.determineTrickWinner (first :: rest) (Playing.TrumpSuit.ofSuit t) =
          some p.player ∧
        p.card.suit = t ∧
        ∀ q ∈ first :: rest, q.card.suit = t → q.card ≠ p.card →
          RANK_VALUES q.card.rank < RANK_VALUES p.card.rank) ∧
    (∀ (first : Playing.Play) (rest : List Playing.Play)
        (trumpSuit : Playing.TrumpSuit),
      (first :: rest).length ≤ 4 →
      ((first :: rest).map Playing.Play.card).Nodup →
      (∀ s : Suit, trumpSuit = Playing.TrumpSuit.ofSuit s →
        ∀ p ∈ first :: rest, p.card.suit ≠ s) →
      ∃ p ∈ first :: rest,
        Playing.determineTrickWinner (first :: rest) trumpSuit = some p.player ∧
        p.card.suit = first.card.suit ∧
        ∀ q ∈ first :: rest, q.card.suit = first.card.suit → q.card ≠ p.card →
          RANK_VALUES q.card.rank < RANK_VALUES p.card.rank) ∧
    Playing.determineTrickWinner
      [⟨⟨Rank.n7, Suit.C⟩, "P1"⟩, ⟨⟨Rank.K, Suit.C⟩, "P2"⟩,
       ⟨⟨Rank.n2, Suit.D⟩, "P3"⟩, ⟨⟨Rank.n3, Suit.D⟩, "P4"⟩]
      (Playing.TrumpSuit.ofSuit Suit.D) = some ("P4") := by
  refine ⟨?_, ?_, by decide⟩
  · intro first rest t hlen hnodup htrump
    have hmem := trickFold_mem (Playing.TrumpSuit.ofSuit t) rest first
    have htr : first.card.suit = t ∨ ∃ p ∈ rest, p.card.suit = t := by
      obtain ⟨p, hp, hpt⟩ := htrump
      simp only [List.mem_cons] at hp
      rcases hp with hp | hp
      · subst hp; exact Or.inl hpt
      · exact Or.inr ⟨p, hp, hpt⟩
    obtain ⟨hwt, hbound⟩ := (trickFold_trump t rest first).1 htr
    refine ⟨rest.foldl (Playing.trickStep (Playing.TrumpSuit.ofSuit t)) first,
      hmem, rfl, hwt, ?_⟩
    intro q hq hqt hqne
    have hle := hbound q hq hqt
    rcases lt_or_eq_of_le hle with hlt | heq
    · exact hlt
    · exact absurd
        (card_eq_of _ _ (RANK_VALUES_injective _ _ heq) (hqt.trans hwt.symm)) hqne
  · intro first rest trumpSuit hlen hnodup hnone
    cases trumpSuit with
    | ofSuit s =>
      have hf : first.card.suit ≠ s := hnone s rfl first (by simp)
      have hr : ∀ p ∈ rest, p.card.suit ≠ s := fun p hp => hnone s rfl p (by simp [hp])
      obtain ⟨hws, hbound⟩ := (trickFold_trump s rest first).2 ⟨hf, hr⟩
      have hmem := trickFold_mem (Playing.TrumpSuit.ofSuit s) rest first
      refine ⟨rest.foldl (Playing.trickStep (Playing.TrumpSuit.ofSuit s)) first,
        hmem, rfl, hws, ?_⟩
      intro q hq hqs hqne
      have hle := hbound q hq hqs
      rcases lt_or_eq_of_le hle with hlt | heq
      · exact hlt
      · exact absurd
          (card_eq_of _ _ (RANK_VALUES_injective _ _ heq) (hqs.trans hws.symm)) hqne
    | NT =>
      obtain ⟨hws, hbound⟩ := trickFold_nt Playing.TrumpSuit.NT (Or.inl rfl) rest first
      have hmem := trickFold_mem Playing.TrumpSuit.NT rest first
      refine ⟨rest.foldl (Playing.trickStep Playing.TrumpSuit.NT) first,
        hmem, rfl, hws, ?_⟩
      intro q hq hqs hqne
      have hle := hbound q hq hqs
      rcases lt_or_eq_of_le hle with hlt | heq
      · exact hlt
      · exact absurd
          (card_eq_of _ _ (RANK_VALUES_injective _ _ heq) (hqs.trans hws.symm)) hqne
    | null =>
      obtain ⟨hws, hbound⟩ := trickFold_nt Playing.TrumpSuit.null (Or.inr rfl) rest first
      have hmem := trickFold_mem Playing.TrumpSuit.null rest first
      refine ⟨rest.foldl (Playing.trickStep Playing.TrumpSuit.null) first,
        hmem, rfl, hws, ?_⟩
      intro q hq hqs hqne
      have hle := hbound q hq hqs
      rcases lt_or_eq_of_le hle with hlt | heq
      · exact hlt
      · exact absurd
          (card_eq_of _ _ (RANK_VALUES_injective _ _ heq) (hqs.trans hws.symm)) hqne

/-- Claim C8, witness: the trump part applied to the concrete trick 7C
led, KC, 2D, 3D with diamonds trump. -/
theorem trick_winner_spec_witness :
    (([⟨⟨Rank.n7, Suit.C⟩, "P1"⟩, ⟨⟨Rank.K, Suit.C⟩, "P2"⟩,
       ⟨⟨Rank.n2, Suit.D⟩, "P3"⟩, ⟨⟨Rank.n3, Suit.D⟩, "P4"⟩] :
        List Playing.Play).length ≤ 4) ∧
    (∃ p ∈ ([⟨⟨Rank.n7, Suit.C⟩, "P1"⟩, ⟨⟨Rank.K, Suit.C⟩, "P2"⟩,
             ⟨⟨Rank.n2, Suit.D⟩, "P3"⟩, ⟨⟨Rank.n3, Suit.D⟩, "P4"⟩] :
              List Playing.Play),
      Playing.determineTrickWinner
        [⟨⟨Rank.n7, Suit.C⟩, "P1"⟩, ⟨⟨Rank.K, Suit.C⟩, "P2"⟩,
         ⟨⟨Rank.n2, Suit.D⟩, "P3"⟩, ⟨⟨Rank.n3, Suit.D⟩, "P4"⟩]
        (Playing.TrumpSuit.ofSuit Suit.D) = some p.player ∧
      p.card.suit = Suit.D ∧
      ∀ q ∈ ([⟨⟨Rank.n7, Suit.C⟩, "P1"⟩, ⟨⟨Rank.K, Suit.C⟩, "P2"⟩,
              ⟨⟨Rank.n2, Suit.D⟩, "P3"⟩, ⟨⟨Rank.n3, Suit.D⟩, "P4"⟩] :
               List Playing.Play),
        q.card.suit = Suit.D → q.card ≠ p.card →
          RANK_VALUES q.card.rank < RANK_VALUES p.card.rank) :=
  ⟨by decide,
   trick_winner_spec.1 ⟨⟨Rank.n7, Suit.C⟩, "P1"⟩
     [⟨⟨Rank.K, Suit.C⟩, "P2"⟩, ⟨⟨Rank.n2, Suit.D⟩, "P3"⟩, ⟨⟨Rank.n3, Suit.D⟩, "P4"⟩]
     Suit.D (by decide) (by decide) (by decide)⟩

/-- Claim C9: for every deck that is a permutation of the 52-card deck,
`dealCards` deals four 13-card hands that are pairwise disjoint and
whose concatenation is a duplicate-free permutation of the full deck:
no card duplicated, no card omitted. -/
theorem deal_partition (deck : List Card) (hperm : deck.Perm CardUtils.createDeck) :
    ∃ hands : CardUtils.Hands,
      CardUtils.dealCards deck = some hands ∧
      hands.NORTH.length = 13 ∧ hands.SOUTH.length = 13 ∧
      hands.EAST.length = 13 ∧ hands.WEST.length = 13 ∧
      (hands.NORTH ++ hands.SOUTH ++ hands.EAST ++ hands.WEST).Perm
        CardUtils.createDeck ∧
      (hands.NORTH ++ hands.SOUTH ++ hands.EAST ++ hands.WEST).Nodup ∧
      hands.NORTH.Disjoint hands.SOUTH ∧ hands.NORTH.Disjoint hands.EAST ∧
      hands.NORTH.Disjoint hands.WEST ∧ hands.SOUTH.Disjoint hands.EAST ∧
      hands.SOUTH.Disjoint hands.WEST ∧ hands.EAST.Disjoint hands.WEST := by
  have hlen : deck.length = 52 := by rw [hperm.length_eq]; decide
  have h39 : (deck.drop 39).take 13 = deck.drop 39 :=
    List.take_of_length_le (by simp [hlen])
  have hconcat :
      deck.take 13 ++ (deck.drop 13).take 13 ++ (deck.drop 26).take 13 ++
        (deck.drop 39).take 13 = deck := by
    rw [h39]
    have e1 : deck.drop 39 = (deck.drop 26).drop 13 := by rw [List.drop_drop]
    have e2 : deck.drop 26 = (deck.drop 13).drop 13 := by rw [List.drop_drop]
    calc deck.take 13 ++ (deck.drop 13).take 13 ++ (deck.drop 26).take 13 ++
          deck.drop 39
        = deck.take 13 ++ ((deck.drop 13).take 13 ++ ((deck.drop 26).take 13 ++
            ((deck.drop 26).drop 13))) := by rw [e1]; simp [List.append_assoc]
      _ = deck.take 13 ++ ((deck.drop 13).take 13 ++ (deck.drop 13).drop 13) := by
            rw [List.take_append_drop, e2, List.take_append_drop]
      _ = deck := by rw [List.take_append_drop, List.take_append_drop]
  have hperm2 :
      (deck.take 13 ++ (deck.drop 13).take 13 ++ (deck.drop 26).take 13 ++
        (deck.drop 39).take 13).Perm CardUtils.createDeck := by
    rw [hconcat]; exact hperm
  have hnodup :
      (deck.take 13 ++ (deck.drop 13).take 13 ++ (deck.drop 26).take 13 ++
        (deck.drop 39).take 13).Nodup :=
    hperm2.nodup_iff.mpr createDeck_nodup
  have hdisj := hnodup
  simp only [List.nodup_append, List.disjoint_append_left,
    List.disjoint_append_right] at hdisj
  refine ⟨⟨deck.take 13, (deck.drop 13).take 13, (deck.drop 26).take 13,
    (deck.drop 39).take 13⟩, ?_, ?_, ?_, ?_, ?_, hperm2, hnodup,
    ?_, ?_, ?_, ?_, ?_, ?_⟩
  · simp [CardUtils.dealCards, hlen]
  · simp [hlen]
  · simp [hlen]
  · simp [hlen]
  · simp [hlen]
  all_goals tauto

/-- Claim C9, witness: dealing the unshuffled deck itself. -/
theorem deal_partition_witness :
    CardUtils.createDeck.Perm CardUtils.createDeck ∧
    (∃ hands : CardUtils.Hands,
      CardUtils.dealCards CardUtils.createDeck = some hands ∧
      hands.NORTH.length = 13 ∧ hands.SOUTH.length = 13 ∧
      hands.EAST.length = 13 ∧ hands.WEST.length = 13 ∧
      (hands.NORTH ++ hands.SOUTH ++ hands.EAST ++ hands.WEST).Perm
        CardUtils.createDeck ∧
      (hands.NORTH ++ hands.SOUTH ++ hands.EAST ++ hands.WEST).Nodup ∧
      hands.NORTH.Disjoint hands.SOUTH ∧ hands.NORTH.Disjoint hands.EAST ∧
      hands.NORTH.Disjoint hands.WEST ∧ hands.SOUTH.Disjoint hands.EAST ∧
      hands.SOUTH.Disjoint hands.WEST ∧ hands.EAST.Disjoint hands.WEST) :=
  ⟨List.Perm.refl _, deal_partition CardUtils.createDeck (List.Perm.refl _)⟩

/-- Claim C10: the bid comparison of `isBidHigher` is a strict total
order on level-and-suit bids: for all bids a and b exactly one of a
below b, a equal to b, b below a holds, and the relation is
transitive. -/
theorem bid_order_strict_total :
    (∀ a b : BiddingEngine.BidLS,
      (BiddingEngine.isBidHigher b (some a) = true ∧ a ≠ b ∧
        ¬ BiddingEngine.isBidHigher a (some b) = true) ∨
      (a = b ∧ ¬ BiddingEngine.isBidHigher b (some a) = true ∧
        ¬ BiddingEngine.isBidHigher a (some b) = true) ∨
      (BiddingEngine.isBidHigher a (some b) = true ∧ a ≠ b ∧
        ¬ BiddingEngine.isBidHigher b (some a) = true)) ∧
    (∀ a b c : BiddingEngine.BidLS,
      BiddingEngine.isBidHigher b (some a) = true →
      BiddingEngine.isBidHigher c (some b) = true →
      BiddingEngine.isBidHigher c (some a) = true) := by
  constructor
  · intro a b
    simp only [isBidHigher_some_iff]
    by_cases hab : a = b
    · subst hab
      right; left
      refine ⟨rfl, ?_, ?_⟩ <;> omega
    · have hne : a.level ≠ b.level ∨
          BiddingEngine.suitOrder a.suit ≠ BiddingEngine.suitOrder b.suit := by
        by_contra hcon
        push_neg at hcon
        obtain ⟨h1, h2⟩ := hcon
        apply hab
        obtain ⟨al, as⟩ := a
        obtain ⟨bl, bs⟩ := b
        simp only at h1 h2
        have := suitOrder_injective _ _ h2
        simp [h1, this]
      rcases Nat.lt_trichotomy a.level b.level with hl | hl | hl
      · left
        refine ⟨by omega, hab, by omega⟩
      · have hs : BiddingEngine.suitOrder a.suit ≠ BiddingEngine.suitOrder b.suit := by
          rcases hne with h | h
          · exact absurd hl h
          · exact h
        rcases Nat.lt_or_ge (BiddingEngine.suitOrder a.suit)
            (BiddingEngine.suitOrder b.suit) with hso | hso
        · left
          refine ⟨by omega, hab, by omega⟩
        · right; right
          refine ⟨by omega, hab, by omega⟩
      · right; right
        refine ⟨by omega, hab, by omega⟩
  · intro a b c
    simp only [isBidHigher_some_iff]
    intro h1 h2
    omega

/-- Claim C10, witness: transitivity applied to 1C below 1D below 2C. -/
theorem bid_order_strict_total_witness :
    BiddingEngine.isBidHigher ⟨1, BidSuit.D⟩ (some ⟨1, BidSuit.C⟩) = true ∧
    BiddingEngine.isBidHigher ⟨2, BidSuit.C⟩ (some ⟨1, BidSuit.D⟩) = true ∧
    BiddingEngine.isBidHigher ⟨2, BidSuit.C⟩ (some ⟨1, BidSuit.C⟩) = true :=
  ⟨by decide, by decide,
   bid_order_strict_total.2 ⟨1, BidSuit.C⟩ ⟨1, BidSuit.D⟩ ⟨2, BidSuit.C⟩
     (by decide) (by decide)⟩

end Bridge
